import Mathlib

/-!
Verification of the jam-player wall-clock synchronization engine.

The definitions below are a shallow embedding of the Python source in
`src/jam_player/services_v2/jam_player_display.py` (schedule predicate,
timeline mapper, sync controller) and the mirrored sync logic in
`src/jam_player/jam_player_app.py`.  Times and durations are integer
milliseconds; playback speeds are integers in hundredths of real-time rate,
standing exactly for the decimal literals of the source (1.01 becomes 101,
0.97 becomes 97, and so on).
-/

namespace JamPlayer

/-- Module-level constant `SEEK_THRESHOLD_MS = 500` from jam_player_display.py. -/
def SEEK_THRESHOLD_MS : Int := 500

/-- Module-level constant `TARGET_SYNC_TOLERANCE_MS = 10` from jam_player_display.py. -/
def TARGET_SYNC_TOLERANCE_MS : Int := 10

/-- Playback speed constant `SPEED_NORMAL = 1.0`, in hundredths. -/
def SPEED_NORMAL : Int := 100

/-- Playback speed constant `SPEED_GENTLE_FAST = 1.01`, in hundredths. -/
def SPEED_GENTLE_FAST : Int := 101

/-- Playback speed constant `SPEED_GENTLE_SLOW = 0.99`, in hundredths. -/
def SPEED_GENTLE_SLOW : Int := 99

/-- Playback speed constant `SPEED_MODERATE_FAST = 1.03`, in hundredths. -/
def SPEED_MODERATE_FAST : Int := 103

/-- Playback speed constant `SPEED_MODERATE_SLOW = 0.97`, in hundredths. -/
def SPEED_MODERATE_SLOW : Int := 97

/-- Playback speed constant `SPEED_AGGRESSIVE_FAST = 1.05`, in hundredths. -/
def SPEED_AGGRESSIVE_FAST : Int := 105

/-- Playback speed constant `SPEED_AGGRESSIVE_SLOW = 0.95`, in hundredths. -/
def SPEED_AGGRESSIVE_SLOW : Int := 95

/-- Embedding of `JamPlayerDisplayManager._get_sync_offset_ms` (and the identical
wrap-correction in `jam_player_app.get_sync_offset_ms`): raw offset is
`actual - expected`; subtract the duration when the offset exceeds half the
duration, add it when below minus half.  The Python code compares the integer
offset against the exact value `duration_ms / 2`; over the integers that
comparison is `2 * offset_ms > duration_ms`, which is how it is written here. -/
def get_sync_offset_ms (expected_ms actual_ms duration_ms : Int) : Int :=
  let offset_ms := actual_ms - expected_ms
  if 2 * offset_ms > duration_ms then offset_ms - duration_ms
  else if 2 * offset_ms < -duration_ms then offset_ms + duration_ms
  else offset_ms

/-- A command the sync controller sends to the mpv player over IPC:
either a seek (target in milliseconds) or a speed change (in hundredths). -/
inductive SyncCmd where
  | seek (target_ms : Int)
  | set_speed (speed : Int)
deriving DecidableEq, Repr

/-- Embedding of one tick of `JamPlayerDisplayManager._adjust_video_sync`
(the tier logic is line-for-line the same in `jam_player_app.adjust_sync`).
State is the tracked commanded speed `self._current_speed`; the result is the
list of IPC commands issued on this tick together with the new tracked speed.
`actual_ms = none` models `mpv.get_playback_time()` returning `None`, where the
Python code returns immediately. -/
def adjust_video_sync (current_speed : Int) (scene_duration_ms position_in_scene_ms : Int)
    (actual_ms : Option Int) : List SyncCmd × Int :=
  match actual_ms with
  | none => ([], current_speed)
  | some a =>
    let offset_ms := get_sync_offset_ms position_in_scene_ms a scene_duration_ms
    let abs_offset := |offset_ms|
    if abs_offset > SEEK_THRESHOLD_MS then
      ([SyncCmd.seek position_in_scene_ms, SyncCmd.set_speed SPEED_NORMAL], SPEED_NORMAL)
    else if abs_offset > 100 then
      let new_speed := if offset_ms < 0 then SPEED_AGGRESSIVE_FAST else SPEED_AGGRESSIVE_SLOW
      if new_speed ≠ current_speed then ([SyncCmd.set_speed new_speed], new_speed)
      else ([], current_speed)
    else if abs_offset > 30 then
      let new_speed := if offset_ms < 0 then SPEED_MODERATE_FAST else SPEED_MODERATE_SLOW
      if new_speed ≠ current_speed then ([SyncCmd.set_speed new_speed], new_speed)
      else ([], current_speed)
    else if abs_offset > TARGET_SYNC_TOLERANCE_MS then
      let new_speed := if offset_ms < 0 then SPEED_GENTLE_FAST else SPEED_GENTLE_SLOW
      if new_speed ≠ current_speed then ([SyncCmd.set_speed new_speed], new_speed)
      else ([], current_speed)
    else
      if current_speed ≠ SPEED_NORMAL then ([SyncCmd.set_speed SPEED_NORMAL], SPEED_NORMAL)
      else ([], current_speed)

/-- C2: the wrap-corrected sync offset always lies within plus or minus half the
duration: for `duration > 0` and `actual, expected ∈ [0, duration)`, the result
`o` of `get_sync_offset_ms` satisfies `-duration ≤ 2 o ∧ 2 o ≤ duration`, that
is `-duration/2 ≤ o ≤ duration/2`. -/
theorem sync_offset_wrap_bound (expected_ms actual_ms duration_ms : Int)
    (hd : 0 < duration_ms) (ha0 : 0 ≤ actual_ms) (ha : actual_ms < duration_ms)
    (he0 : 0 ≤ expected_ms) (he : expected_ms < duration_ms) :
    -duration_ms ≤ 2 * get_sync_offset_ms expected_ms actual_ms duration_ms ∧
      2 * get_sync_offset_ms expected_ms actual_ms duration_ms ≤ duration_ms := by
  simp only [get_sync_offset_ms]
  split_ifs <;> omega

/-- Witness for `sync_offset_wrap_bound` at expected = 100 ms, actual = 29900 ms,
duration = 30000 ms. -/
theorem sync_offset_wrap_bound_witness :
    ((0 : Int) < 30000 ∧ (0 : Int) ≤ 29900 ∧ (29900 : Int) < 30000 ∧
      (0 : Int) ≤ 100 ∧ (100 : Int) < 30000) ∧
    (-(30000 : Int) ≤ 2 * get_sync_offset_ms 100 29900 30000 ∧
      2 * get_sync_offset_ms 100 29900 30000 ≤ 30000) :=
  ⟨by decide,
    sync_offset_wrap_bound 100 29900 30000 (by decide) (by decide) (by decide)
      (by decide) (by decide)⟩

/-- C1: the tiered proportional controller.  Writing `o` for the wrap-corrected
offset computed on the tick: `|o| ≤ 10` commands normal speed 1.00; for
`10 < |o| ≤ 30` the gentle speeds 0.99 (ahead, `o > 0`) / 1.01 (behind, `o < 0`);
for `30 < |o| ≤ 100` the moderate speeds 0.97 / 1.03; for `100 < |o| ≤ 500` the
aggressive speeds 0.95 / 1.05; for `|o| > 500` the tick seeks to the expected
position and resets the commanded speed to 1.00.  The spec's scenario-3 input
(actual = 10 s, expected = 9.95 s, duration = 30 s) yields offset +50 ms, hence
the moderate tier at speed 0.97; the boundary cases `|o| = 30` (gentle band) and
`|o| = 100` (moderate band) fall under the band conjuncts below. -/
theorem sync_tier_control (current_speed dur pos a : Int) :
    (get_sync_offset_ms 9950 10000 30000 = 50) ∧
    ((|get_sync_offset_ms pos a dur| ≤ 10 →
        (adjust_video_sync current_speed dur pos (some a)).2 = SPEED_NORMAL) ∧
     (10 < |get_sync_offset_ms pos a dur| → |get_sync_offset_ms pos a dur| ≤ 30 →
        (adjust_video_sync current_speed dur pos (some a)).2 =
          (if get_sync_offset_ms pos a dur < 0 then SPEED_GENTLE_FAST else SPEED_GENTLE_SLOW)) ∧
     (30 < |get_sync_offset_ms pos a dur| → |get_sync_offset_ms pos a dur| ≤ 100 →
        (adjust_video_sync current_speed dur pos (some a)).2 =
          (if get_sync_offset_ms pos a dur < 0 then SPEED_MODERATE_FAST else SPEED_MODERATE_SLOW)) ∧
     (100 < |get_sync_offset_ms pos a dur| → |get_sync_offset_ms pos a dur| ≤ 500 →
        (adjust_video_sync current_speed dur pos (some a)).2 =
          (if get_sync_offset_ms pos a dur < 0 then SPEED_AGGRESSIVE_FAST else SPEED_AGGRESSIVE_SLOW)) ∧
     (500 < |get_sync_offset_ms pos a dur| →
        adjust_video_sync current_speed dur pos (some a) =
          ([SyncCmd.seek pos, SyncCmd.set_speed SPEED_NORMAL], SPEED_NORMAL))) := by
  refine ⟨by decide, ?_, ?_, ?_, ?_, ?_⟩ <;>
    · intros
      simp only [adjust_video_sync, SEEK_THRESHOLD_MS, TARGET_SYNC_TOLERANCE_MS, SPEED_NORMAL,
        SPEED_GENTLE_FAST, SPEED_GENTLE_SLOW, SPEED_MODERATE_FAST, SPEED_MODERATE_SLOW,
        SPEED_AGGRESSIVE_FAST, SPEED_AGGRESSIVE_SLOW] at *
      split_ifs <;> first | rfl | omega

/-- Witness for `sync_tier_control`: offset +50 ms (actual 10000 ms, expected
9950 ms, duration 30000 ms) selects the moderate tier and commands 0.97. -/
theorem sync_tier_control_witness :
    (30 < |get_sync_offset_ms 9950 10000 30000| ∧
      |get_sync_offset_ms 9950 10000 30000| ≤ 100) ∧
    (adjust_video_sync SPEED_NORMAL 30000 9950 (some 10000)).2 =
      (if get_sync_offset_ms 9950 10000 30000 < 0 then SPEED_MODERATE_FAST
       else SPEED_MODERATE_SLOW) :=
  ⟨by decide,
    (sync_tier_control SPEED_NORMAL 30000 9950 10000).2.2.2.1 (by decide) (by decide)⟩

/-- C4 counterexample: at actual = 29.9 s (29900 ms), expected = 0.1 s (100 ms),
duration = 30 s (30000 ms), with commanded speed 1.00, the controller commands
the aggressive speed 1.05, not the gentle speed 1.01 the claim states. -/
theorem scenario2_not_gentle :
    (adjust_video_sync SPEED_NORMAL 30000 100 (some 29900)).2 = SPEED_AGGRESSIVE_FAST ∧
      (adjust_video_sync SPEED_NORMAL 30000 100 (some 29900)).2 ≠ SPEED_GENTLE_FAST := by
  decide

/-- C4 amended: for actual = 29.9 s, expected = 0.1 s, duration = 30 s, the raw
offset 29800 ms wrap-corrects to −200 ms (player behind), which selects the
aggressive tier: the tick issues exactly one command, set_speed 1.05, and the
commanded speed becomes 1.05. -/
theorem scenario2_aggressive :
    get_sync_offset_ms 100 29900 30000 = -200 ∧
      adjust_video_sync SPEED_NORMAL 30000 100 (some 29900) =
        ([SyncCmd.set_speed SPEED_AGGRESSIVE_FAST], SPEED_AGGRESSIVE_FAST) := by
  decide

/-- C6 counterexample: with the commanded speed already at 1.00 and an offset of
600 ms the emergency-seek branch still sends `set_speed 1.00`, a set_speed
command equal to the currently tracked speed — refuting the claim that set_speed
is sent only when the commanded speed would change. -/
theorem redundant_set_speed_on_seek :
    SyncCmd.set_speed SPEED_NORMAL ∈
      (adjust_video_sync SPEED_NORMAL 30000 0 (some 600)).1 := by
  decide

/-- C6 amended: on any tick whose wrap-corrected offset is at most 500 ms in
magnitude (every non-seek tier), the tick sends either no command or exactly one
set_speed whose speed differs from the tracked commanded speed; the
emergency-seek branch (offset above 500 ms) is the exception, always re-sending
set_speed 1.00 after the seek.  Moreover at equilibrium the controller is
idempotent: when the offset is 0 on a tick (actual = expected, duration ≥ 0) the
commanded speed becomes 1.00, and a second such tick issues no command at all
and leaves the speed unchanged. -/
theorem set_speed_only_on_change (current_speed dur pos : Int) (hdur : 0 ≤ dur) :
    (∀ a : Int, |get_sync_offset_ms pos a dur| ≤ SEEK_THRESHOLD_MS →
      (adjust_video_sync current_speed dur pos (some a)).1 = [] ∨
        ∃ s : Int, (adjust_video_sync current_speed dur pos (some a)).1 =
          [SyncCmd.set_speed s] ∧ s ≠ current_speed) ∧
    ((adjust_video_sync current_speed dur pos (some pos)).2 = SPEED_NORMAL ∧
      adjust_video_sync ((adjust_video_sync current_speed dur pos (some pos)).2) dur pos
          (some pos) = ([], SPEED_NORMAL)) := by
  have hzero : get_sync_offset_ms pos pos dur = 0 := by
    simp only [get_sync_offset_ms]
    split_ifs <;> omega
  have hfirst : (adjust_video_sync current_speed dur pos (some pos)).2 = SPEED_NORMAL := by
    norm_num [adjust_video_sync, hzero, SEEK_THRESHOLD_MS, TARGET_SYNC_TOLERANCE_MS,
      SPEED_NORMAL]
    split_ifs with h
    · exact h
    · rfl
  refine ⟨?_, hfirst, ?_⟩
  · intro a hle
    simp only [SEEK_THRESHOLD_MS, SPEED_NORMAL] at hle ⊢
    simp only [adjust_video_sync, SEEK_THRESHOLD_MS, TARGET_SYNC_TOLERANCE_MS, SPEED_NORMAL,
      SPEED_GENTLE_FAST, SPEED_GENTLE_SLOW, SPEED_MODERATE_FAST, SPEED_MODERATE_SLOW,
      SPEED_AGGRESSIVE_FAST, SPEED_AGGRESSIVE_SLOW]
    split_ifs <;>
      first
        | omega
        | exact Or.inl rfl
        | exact Or.inr ⟨_, rfl, by omega⟩
  · rw [hfirst]
    norm_num [adjust_video_sync, hzero, SEEK_THRESHOLD_MS, TARGET_SYNC_TOLERANCE_MS,
      SPEED_NORMAL]

/-- Witness for `set_speed_only_on_change` at speed 1.00, duration 30000 ms,
expected position 0. -/
theorem set_speed_only_on_change_witness :
    ((0 : Int) ≤ 30000) ∧
    ((∀ a : Int, |get_sync_offset_ms 0 a 30000| ≤ SEEK_THRESHOLD_MS →
      (adjust_video_sync SPEED_NORMAL 30000 0 (some a)).1 = [] ∨
        ∃ s : Int, (adjust_video_sync SPEED_NORMAL 30000 0 (some a)).1 =
          [SyncCmd.set_speed s] ∧ s ≠ SPEED_NORMAL) ∧
     ((adjust_video_sync SPEED_NORMAL 30000 0 (some 0)).2 = SPEED_NORMAL ∧
      adjust_video_sync ((adjust_video_sync SPEED_NORMAL 30000 0 (some 0)).2) 30000 0
          (some 0) = ([], SPEED_NORMAL))) :=
  ⟨by decide, set_speed_only_on_change SPEED_NORMAL 30000 0 (by decide)⟩

/-- C7: when the player reports no playback position (`get_playback_time`
returns None), the sync tick is skipped entirely: no command is issued and the
tracked commanded speed is unchanged, for every state and every input. -/
theorem missing_position_skips_tick (current_speed dur pos : Int) :
    adjust_video_sync current_speed dur pos none = ([], current_speed) := rfl

/-- A schedule entry in a scene's `days_scheduled` list.  `dayOfWeek` is the
upper-case weekday name (the Python code also accepts an object form and
extracts the same string from its `value` field).  The time fields model the
raw `startTime` / `endTime` strings: `none` stands for a missing or empty
string (falsy in Python), `some (h, m)` for the string "h:m". -/
structure DaySchedule where
  dayOfWeek : String
  startTime : Option (Nat × Nat)
  endTime : Option (Nat × Nat)
deriving DecidableEq, Repr

/-- Embedding of `parse_time_str`: an empty string parses to None; the string
"h:m" parses to `datetime.time(h, m)` when that is a valid time of day, and
otherwise the ValueError is caught and None returned.  A valid time is
represented by its minutes past midnight, which compares exactly like
`datetime.time` values do. -/
def parse_time_str : Option (Nat × Nat) → Option Nat
  | none => none
  | some (h, m) => if h < 24 ∧ m < 60 then some (h * 60 + m) else none

/-- The `for schedule in days_scheduled` loop of `is_scene_scheduled_now`,
taking the current weekday name and the current time in minutes past midnight.
Entries for other days are skipped; the first entry for the current day
decides, ending with the loop body's final `return False` when its time
constraints are not met; an exhausted loop also returns False. -/
def schedule_loop : List DaySchedule → String → Nat → Bool
  | [], _, _ => false
  | schedule :: rest, current_weekday, current_time =>
    if schedule.dayOfWeek ≠ current_weekday then
      schedule_loop rest current_weekday current_time
    else if schedule.startTime = none ∧ schedule.endTime = none then true
    else
      match parse_time_str schedule.startTime, parse_time_str schedule.endTime with
      | some start_time, some end_time =>
        if start_time ≤ end_time then
          decide (start_time ≤ current_time ∧ current_time ≤ end_time)
        else
          decide (current_time ≥ start_time ∨ current_time ≤ end_time)
      | some start_time, none => decide (current_time ≥ start_time)
      | none, some end_time => decide (current_time ≤ end_time)
      | none, none => false

/-- Embedding of `is_scene_scheduled_now`: an empty `days_scheduled` list means
always display (backwards compatibility); otherwise the loop above decides. -/
def is_scene_scheduled_now (days_scheduled : List DaySchedule)
    (current_weekday : String) (current_time : Nat) : Bool :=
  if days_scheduled.isEmpty then true
  else schedule_loop days_scheduled current_weekday current_time

/-- Skipping entries whose day is not the current weekday leaves the loop
result unchanged. -/
theorem schedule_loop_skip (pre rest : List DaySchedule) (d : String) (t : Nat)
    (hpre : ∀ x ∈ pre, x.dayOfWeek ≠ d) :
    schedule_loop (pre ++ rest) d t = schedule_loop rest d t := by
  induction pre with
  | nil => rfl
  | cons x pre ih =>
    have hx : x.dayOfWeek ≠ d := hpre x (List.mem_cons_self x pre)
    simp only [List.cons_append, schedule_loop, if_pos hx]
    exact ih fun y hy => hpre y (List.mem_cons_of_mem x hy)

/-- C5: overnight windows.  For a scene scheduled with a single entry for day
`d` whose valid start time is later than its valid end time, the schedule
predicate holds on day `d` at every time of day `t` (minutes past midnight)
that is at or after the start or at or before the end; the entry
{MONDAY, start 22:00, end 02:00} at Monday 23:30 and Monday 01:00 gives
concrete instances. -/
theorem overnight_window_active (d : String) (sh sm eh em t : Nat)
    (hsh : sh < 24) (hsm : sm < 60) (heh : eh < 24) (hem : em < 60)
    (hover : eh * 60 + em < sh * 60 + sm)
    (ht : sh * 60 + sm ≤ t ∨ t ≤ eh * 60 + em) :
    is_scene_scheduled_now [⟨d, some (sh, sm), some (eh, em)⟩] d t = true := by
  have hle : ¬(sh * 60 + sm ≤ eh * 60 + em) := by omega
  simp only [is_scene_scheduled_now, List.isEmpty, schedule_loop, parse_time_str,
    if_pos (And.intro hsh hsm), if_pos (And.intro heh hem), if_neg hle]
  simp [ht]

/-- Witness for `overnight_window_active`: the scene
{dayOfWeek MONDAY, start 22:00, end 02:00} is active at Monday 23:30
(1410 minutes) and at Monday 01:00 (60 minutes). -/
theorem overnight_window_active_witness :
    ((22 < 24 ∧ 0 < 60 ∧ 2 < 24 ∧ 0 < 60 ∧ 2 * 60 + 0 < 22 * 60 + 0) ∧
      (22 * 60 + 0 ≤ 1410 ∨ 1410 ≤ 2 * 60 + 0) ∧ (22 * 60 + 0 ≤ 60 ∨ 60 ≤ 2 * 60 + 0)) ∧
    is_scene_scheduled_now [⟨"MONDAY", some (22, 0), some (2, 0)⟩] "MONDAY" 1410 = true ∧
    is_scene_scheduled_now [⟨"MONDAY", some (22, 0), some (2, 0)⟩] "MONDAY" 60 = true :=
  ⟨by omega,
    overnight_window_active "MONDAY" 22 0 2 0 1410 (by omega) (by omega) (by omega)
      (by omega) (by omega) (by omega),
    overnight_window_active "MONDAY" 22 0 2 0 60 (by omega) (by omega) (by omega)
      (by omega) (by omega) (by omega)⟩

/-- C9: only the first entry for the current day is consulted.  If every entry
before `e` is for another day, `e` is for the current day with a valid
non-overnight window that excludes the current time, then the predicate is
false no matter what entries follow `e` — in particular a second window for the
same day is never examined. -/
theorem first_matching_entry_decides (pre : List DaySchedule) (e : DaySchedule)
    (rest : List DaySchedule) (d : String) (t sh sm eh em : Nat)
    (hpre : ∀ x ∈ pre, x.dayOfWeek ≠ d) (hd : e.dayOfWeek = d)
    (hst : e.startTime = some (sh, sm)) (hen : e.endTime = some (eh, em))
    (hsh : sh < 24) (hsm : sm < 60) (heh : eh < 24) (hem : em < 60)
    (hord : sh * 60 + sm ≤ eh * 60 + em)
    (ht : ¬(sh * 60 + sm ≤ t ∧ t ≤ eh * 60 + em)) :
    is_scene_scheduled_now (pre ++ e :: rest) d t = false := by
  have hne : (pre ++ e :: rest).isEmpty = false := by
    cases pre <;> rfl
  simp only [is_scene_scheduled_now, hne, Bool.false_eq_true, if_false]
  rw [schedule_loop_skip pre (e :: rest) d t hpre]
  simp only [schedule_loop, hd, hst, hen, parse_time_str,
    if_pos (And.intro hsh hsm), if_pos (And.intro heh hem), if_pos hord]
  simp [ht]

/-- Witness for `first_matching_entry_decides`: a scene with the two Friday
windows 09:00-12:00 and 14:00-17:00 is reported inactive at Friday 15:00
(900 minutes), which lies inside the second window. -/
theorem first_matching_entry_decides_witness :
    ((∀ x ∈ ([] : List DaySchedule), x.dayOfWeek ≠ "FRIDAY") ∧
      (DaySchedule.mk "FRIDAY" (some (9, 0)) (some (12, 0))).dayOfWeek = "FRIDAY" ∧
      9 < 24 ∧ 0 < 60 ∧ 12 < 24 ∧ 0 < 60 ∧ 9 * 60 + 0 ≤ 12 * 60 + 0 ∧
      ¬(9 * 60 + 0 ≤ 900 ∧ 900 ≤ 12 * 60 + 0)) ∧
    is_scene_scheduled_now
      ([] ++ DaySchedule.mk "FRIDAY" (some (9, 0)) (some (12, 0)) ::
        [DaySchedule.mk "FRIDAY" (some (14, 0)) (some (17, 0))]) "FRIDAY" 900 = false :=
  ⟨⟨by simp, rfl, by omega, by omega, by omega, by omega, by omega, by omega⟩,
    first_matching_entry_decides [] (DaySchedule.mk "FRIDAY" (some (9, 0)) (some (12, 0)))
      [DaySchedule.mk "FRIDAY" (some (14, 0)) (some (17, 0))] "FRIDAY" 900 9 0 12 0
      (by simp) rfl rfl rfl (by omega) (by omega) (by omega) (by omega) (by omega)
      (by omega)⟩

/-- Embedding of `_calculate_cycle_duration_ms`: a scene is represented by its
duration in integer milliseconds (the Python `int(duration_sec * 1000)`), and
the cycle duration is the running total accumulated over the scene list. -/
def calculate_cycle_duration_ms (scenes : List Nat) : Nat :=
  scenes.foldl (fun total_ms duration_ms => total_ms + duration_ms) 0

/-- The `for i, scene in enumerate(scenes)` loop of `_get_scene_at_position`,
carrying the running index and elapsed milliseconds.  When the loop finds no
scene it falls through to the Python fallback `(0, 0, scenes[0])`, here the
pair `(0, 0)`. -/
def get_scene_at_position_loop : List Nat → Nat → Nat → Nat → Nat × Nat
  | [], _, _, _ => (0, 0)
  | duration_ms :: rest, i, elapsed_ms, position_ms =>
    if elapsed_ms + duration_ms > position_ms then (i, position_ms - elapsed_ms)
    else get_scene_at_position_loop rest (i + 1) (elapsed_ms + duration_ms) position_ms

/-- Embedding of `_get_scene_at_position`: returns the index of the scene at
`position_ms` in the cycle and the position within that scene. -/
def get_scene_at_position (scenes : List Nat) (position_ms : Nat) : Nat × Nat :=
  get_scene_at_position_loop scenes 0 0 position_ms

/-- Embedding of `_calculate_expected_position` (and of
`calculate_expected_position_ms` in jam_player_app.py): the wall clock reduced
modulo the cycle duration. -/
def calculate_expected_position (wall_clock_ms cycle_duration_ms : Nat) : Nat :=
  wall_clock_ms % cycle_duration_ms

/-- The folded running total of `_calculate_cycle_duration_ms` is the list sum. -/
theorem calculate_cycle_duration_ms_eq_sum (scenes : List Nat) :
    calculate_cycle_duration_ms scenes = scenes.sum := by
  have h : ∀ (l : List Nat) (acc : Nat),
      l.foldl (fun total_ms duration_ms => total_ms + duration_ms) acc = acc + l.sum := by
    intro l
    induction l with
    | nil => intro acc; simp
    | cons x xs ih =>
      intro acc
      simp only [List.foldl_cons, List.sum_cons, ih]
      omega
  simpa using h scenes 0

/-- Loop invariant for `get_scene_at_position_loop`: started at index `i` with
`elapsed ≤ p < elapsed + sum`, the loop lands on the unique scene covering `p`:
the result has index `i + k` for some `k`, the prefix of the remaining
durations before `k` together with `elapsed` reaches `p` exactly at the
returned offset, and the offset is below the duration of scene `k`. -/
theorem get_scene_loop_spec (ds : List Nat) :
    ∀ (i elapsed p : Nat), elapsed ≤ p → p < elapsed + ds.sum →
      i ≤ (get_scene_at_position_loop ds i elapsed p).1 ∧
      (ds.take ((get_scene_at_position_loop ds i elapsed p).1 - i)).sum + elapsed +
          (get_scene_at_position_loop ds i elapsed p).2 = p ∧
      (get_scene_at_position_loop ds i elapsed p).2 <
        ds.getD ((get_scene_at_position_loop ds i elapsed p).1 - i) 0 := by
  induction ds with
  | nil =>
    intro i elapsed p h1 h2
    simp only [List.sum_nil] at h2
    omega
  | cons dur rest ih =>
    intro i elapsed p h1 h2
    simp only [get_scene_at_position_loop]
    by_cases hcov : elapsed + dur > p
    · simp only [if_pos hcov, Nat.sub_self, List.take_zero, List.sum_nil, List.getD_cons_zero]
      omega
    · simp only [if_neg hcov]
      have h1' : elapsed + dur ≤ p := by omega
      have h2' : p < (elapsed + dur) + rest.sum := by
        simp only [List.sum_cons] at h2
        omega
      obtain ⟨ha, hb, hc⟩ := ih (i + 1) (elapsed + dur) p h1' h2'
      set r := get_scene_at_position_loop rest (i + 1) (elapsed + dur) p with hr
      have hk : r.1 - i = (r.1 - (i + 1)) + 1 := by omega
      refine ⟨by omega, ?_, ?_⟩
      · rw [hk, List.take_succ_cons, List.sum_cons]
        omega
      · rw [hk, List.getD_cons_succ]
        exact hc

/-- Prefix sums of a list of naturals are monotone in the prefix length. -/
theorem sum_take_le_sum_take (ds : List Nat) (a b : Nat) (hab : a ≤ b) :
    (ds.take a).sum ≤ (ds.take b).sum := by
  have h1 : (ds.take b).take a = ds.take a := by
    rw [List.take_take, Nat.min_eq_left hab]
  have h2 := List.sum_take_add_sum_drop (ds.take b) a
  rw [h1] at h2
  omega

/-- An in-range decomposition of a position into a scene index and an offset
below that scene's duration is unique. -/
theorem scene_decomposition_unique (ds : List Nat) (p j1 o1 j2 o2 : Nat)
    (h1o : o1 < ds.getD j1 0) (h1 : (ds.take j1).sum + o1 = p)
    (h2o : o2 < ds.getD j2 0) (h2 : (ds.take j2).sum + o2 = p) :
    j1 = j2 ∧ o1 = o2 := by
  have hlen1 : j1 < ds.length := by
    by_contra hcon
    rw [List.getD_eq_default ds 0 (by omega)] at h1o
    omega
  have hlen2 : j2 < ds.length := by
    by_contra hcon
    rw [List.getD_eq_default ds 0 (by omega)] at h2o
    omega
  have key : ∀ ja oa jb ob : Nat, ja < ds.length → oa < ds.getD ja 0 →
      (ds.take ja).sum + oa = p → ob < ds.getD jb 0 → (ds.take jb).sum + ob = p →
      ja < jb → False := by
    intro ja oa jb ob hja hoa hpa hob hpb hlt
    have hsucc : (ds.take (ja + 1)).sum = (ds.take ja).sum + ds.getD ja 0 := by
      rw [List.sum_take_succ ds ja hja, List.getD_eq_getElem ds 0 hja]
    have hmono : (ds.take (ja + 1)).sum ≤ (ds.take jb).sum :=
      sum_take_le_sum_take ds (ja + 1) jb (by omega)
    omega
  rcases Nat.lt_trichotomy j1 j2 with hlt | heq | hgt
  · exact absurd (key j1 o1 j2 o2 hlen1 h1o h1 h2o h2 hlt) (by simp)
  · subst heq
    omega
  · exact absurd (key j2 o2 j1 o1 hlen2 h2o h2 h1o h1 hgt) (by simp)

/-- C3: the Timeline Mapper.  For a scene list whose durations sum to a
positive cycle length, the expected position is the wall clock modulo the cycle
duration and lies in `[0, cycle)`; the scene lookup at that position returns
the one pair `(scene_index, offset)` with the offset below the indexed scene's
duration and the durations before the index plus the offset equal to the
position, and any pair satisfying those two constraints is that returned
pair. -/
theorem timeline_mapper_correct (scenes : List Nat) (wall_clock_ms : Nat)
    (hpos : 0 < calculate_cycle_duration_ms scenes) :
    calculate_expected_position wall_clock_ms (calculate_cycle_duration_ms scenes) <
        calculate_cycle_duration_ms scenes ∧
    (scenes.take (get_scene_at_position scenes
        (calculate_expected_position wall_clock_ms (calculate_cycle_duration_ms scenes))).1).sum +
      (get_scene_at_position scenes
        (calculate_expected_position wall_clock_ms (calculate_cycle_duration_ms scenes))).2 =
      calculate_expected_position wall_clock_ms (calculate_cycle_duration_ms scenes) ∧
    (get_scene_at_position scenes
        (calculate_expected_position wall_clock_ms (calculate_cycle_duration_ms scenes))).2 <
      scenes.getD (get_scene_at_position scenes
        (calculate_expected_position wall_clock_ms (calculate_cycle_duration_ms scenes))).1 0 ∧
    ∀ j o : Nat, o < scenes.getD j 0 →
      (scenes.take j).sum + o =
        calculate_expected_position wall_clock_ms (calculate_cycle_duration_ms scenes) →
      j = (get_scene_at_position scenes
        (calculate_expected_position wall_clock_ms (calculate_cycle_duration_ms scenes))).1 ∧
      o = (get_scene_at_position scenes
        (calculate_expected_position wall_clock_ms (calculate_cycle_duration_ms scenes))).2 := by
  rw [calculate_cycle_duration_ms_eq_sum] at hpos ⊢
  set p := calculate_expected_position wall_clock_ms scenes.sum with hp
  have hrange : p < scenes.sum := by
    rw [hp]
    exact Nat.mod_lt _ hpos
  obtain ⟨ha, hb, hc⟩ :=
    get_scene_loop_spec scenes 0 0 p (Nat.zero_le p) (by omega)
  simp only [Nat.sub_zero] at hb hc
  have hb' : (scenes.take (get_scene_at_position scenes p).1).sum +
      (get_scene_at_position scenes p).2 = p := by
    simpa [get_scene_at_position] using hb
  have hc' : (get_scene_at_position scenes p).2 <
      scenes.getD (get_scene_at_position scenes p).1 0 := by
    simpa [get_scene_at_position] using hc
  refine ⟨hrange, hb', hc', ?_⟩
  intro j o hjo hsum
  exact scene_decomposition_unique scenes p j o _ _ hjo hsum hc' hb'

/-- Witness for `timeline_mapper_correct`: the playlist [10 ms, 20 ms] at wall
clock 25 ms has cycle 30 ms, expected position 25, and the lookup returns scene
index 1 at offset 15. -/
theorem timeline_mapper_correct_witness :
    0 < calculate_cycle_duration_ms [10, 20] ∧
    (calculate_expected_position 25 (calculate_cycle_duration_ms [10, 20]) <
        calculate_cycle_duration_ms [10, 20] ∧
      (List.take (get_scene_at_position [10, 20]
          (calculate_expected_position 25 (calculate_cycle_duration_ms [10, 20]))).1
          [10, 20]).sum +
        (get_scene_at_position [10, 20]
          (calculate_expected_position 25 (calculate_cycle_duration_ms [10, 20]))).2 =
        calculate_expected_position 25 (calculate_cycle_duration_ms [10, 20]) ∧
      (get_scene_at_position [10, 20]
          (calculate_expected_position 25 (calculate_cycle_duration_ms [10, 20]))).2 <
        List.getD [10, 20] (get_scene_at_position [10, 20]
          (calculate_expected_position 25 (calculate_cycle_duration_ms [10, 20]))).1 0 ∧
      ∀ j o : Nat, o < List.getD [10, 20] j 0 →
        (List.take j [10, 20]).sum + o =
          calculate_expected_position 25 (calculate_cycle_duration_ms [10, 20]) →
        j = (get_scene_at_position [10, 20]
          (calculate_expected_position 25 (calculate_cycle_duration_ms [10, 20]))).1 ∧
        o = (get_scene_at_position [10, 20]
          (calculate_expected_position 25 (calculate_cycle_duration_ms [10, 20]))).2) :=
  ⟨by decide, timeline_mapper_correct [10, 20] 25 (by decide)⟩

/-- The possible outcomes of one scheduling decision of the playback loop:
either the distinct no-content state or playing a scene at a position. -/
inductive TickOutcome where
  | noContent
  | play (scene_index position_in_scene_ms : Nat)
deriving DecidableEq, Repr

/-- One scheduling decision of `_run_scene_by_scene_sync`, as guarded in the
source: both `if not scenes` guards show the no-scheduled-content screen and
wait (the no-content state), and only the non-empty branch reaches
`_calculate_expected_position` — the sole use of `%` — and the scene lookup. -/
def run_scene_by_scene_tick (scenes : List Nat) (wall_clock_ms : Nat) : TickOutcome :=
  if scenes.isEmpty then TickOutcome.noContent
  else
    let cycle_duration_ms := calculate_cycle_duration_ms scenes
    let position_in_cycle_ms := calculate_expected_position wall_clock_ms cycle_duration_ms
    let r := get_scene_at_position scenes position_in_cycle_ms
    TickOutcome.play r.1 r.2

/-- C8: on an empty active playlist the playback loop takes the distinct
no-content outcome for every wall-clock time — it never reaches the
expected-position computation, so no modulo with a zero cycle duration is
evaluated and no play outcome is produced. -/
theorem empty_playlist_no_content (wall_clock_ms : Nat) :
    run_scene_by_scene_tick [] wall_clock_ms = TickOutcome.noContent ∧
      ∀ i o : Nat, run_scene_by_scene_tick [] wall_clock_ms ≠ TickOutcome.play i o := by
  refine ⟨rfl, ?_⟩
  intro i o h
  exact TickOutcome.noConfusion h

/-- The loop of `_get_scene_at_position` falls through to the fallback when the
position is at or past the elapsed total plus the remaining durations. -/
theorem get_scene_loop_fallback (ds : List Nat) :
    ∀ (i elapsed p : Nat), elapsed + ds.sum ≤ p →
      get_scene_at_position_loop ds i elapsed p = (0, 0) := by
  induction ds with
  | nil => intro i elapsed p h; rfl
  | cons dur rest ih =>
    intro i elapsed p h
    simp only [List.sum_cons] at h
    simp only [get_scene_at_position_loop, if_neg (by omega : ¬elapsed + dur > p)]
    exact ih (i + 1) (elapsed + dur) p (by omega)

/-- C10: the scene lookup is total on non-empty playlists: a position at or
past the total of all durations does not fail but returns the fallback pair
(scene index 0, offset 0), the start of the first scene. -/
theorem out_of_range_position_falls_back (scenes : List Nat) (position_ms : Nat)
    (hne : scenes ≠ []) (hge : scenes.sum ≤ position_ms) :
    get_scene_at_position scenes position_ms = (0, 0) :=
  get_scene_loop_fallback scenes 0 0 position_ms (by omega)

/-- Witness for `out_of_range_position_falls_back`: position 35 ms in the
playlist [10 ms, 20 ms] (cycle 30 ms) maps to scene 0 at offset 0. -/
theorem out_of_range_position_falls_back_witness :
    (([10, 20] : List Nat) ≠ [] ∧ ([10, 20] : List Nat).sum ≤ 35) ∧
      get_scene_at_position [10, 20] 35 = (0, 0) :=
  ⟨⟨by decide, by decide⟩,
    out_of_range_position_falls_back [10, 20] 35 (by decide) (by decide)⟩

end JamPlayer
